import Mathlib

/-
Verification of the races/heats Looker Studio community visualization.

The repository contains two JavaScript variants of one pipeline:
  - src/index.js: flat data rows plus a field-descriptor list, organized into
    a nested race -> heat -> swimmer structure (organizeData), rendered as
    HTML tables (generateHtmlTables), driven by drawViz with a top-level
    try/catch.
  - src/original-viz.js: rows pre-split into a fixed-order dimension tuple,
    grouped by heat only (groupBy), rendered with a single race title taken
    from the first row (drawViz), with no try/catch.

Modelling conventions, kept uniform below:
  - A JavaScript object used as a dictionary is modelled as an association
    list in insertion order (JsObj).  Property enumeration order
    (for...in, Object.entries) follows the ECMAScript ordinary own property
    key order: keys that are canonical array indices first, in ascending
    numeric order, then the remaining string keys in insertion order
    (enumKeys).  Prototype-chain interactions are not modelled.
  - Cell values coming from the host are modelled as String; a value that is
    absent in JavaScript (undefined) is modelled as Option.none.  Using an
    absent value as an object key coerces it to the string "undefined"
    (jsKey), and interpolating it into a template literal renders the string
    "undefined" (renderCell), as in JavaScript.
  - Code that can throw is modelled in Except String; the thrown TypeError
    message texts are representative (exact engine wording varies).
  - The HTML strings built by the renderers are modelled by the display
    tree they denote: one RaceSection per race container div, one
    HeatSection per heat container div with its header cells and data rows.
-/

/-- Decimal value of a character list read most-significant digit first;
none as soon as a non-digit character occurs. -/
def decDigitsFrom (acc : Nat) : List Char → Option Nat
  | [] => some acc
  | c :: cs =>
      if 48 ≤ c.toNat ∧ c.toNat ≤ 57
      then decDigitsFrom (acc * 10 + (c.toNat - 48)) cs
      else none

/-- Canonical array-index test from the ECMAScript specification: a string is
an array index when it is the canonical decimal representation (digits only,
no leading zero except the string 0 itself) of an integer in the range 0 to
2^32 - 2.  Such object keys are enumerated before all other string keys, in
ascending numeric order. -/
def isArrayIndex (s : String) : Bool :=
  match s.data with
  | [] => false
  | c :: cs =>
    match decDigitsFrom 0 (c :: cs) with
    | none => false
    | some n => (decide (c ≠ '0') || decide (cs = [])) && decide (n < 4294967295)

/-- Numeric value of an array-index key, used only to order such keys. -/
def keyNat (s : String) : Nat := (decDigitsFrom 0 s.data).getD 0

/-- Insert a key into a list of array-index keys kept in ascending numeric
order. -/
def insertByNat (k : String) : List String → List String
  | [] => [k]
  | x :: xs => if keyNat k ≤ keyNat x then k :: x :: xs else x :: insertByNat k xs

/-- Sort array-index keys in ascending numeric order (insertion sort). -/
def sortByNat : List String → List String
  | [] => []
  | x :: xs => insertByNat x (sortByNat xs)

/-- Model of a JavaScript object used as a dictionary: its own enumerable
string-keyed properties, as an association list in insertion order. -/
abbrev JsObj (α : Type) := List (String × α)

/-- Property read, obj[key]: the value stored under the key, none when the
object has no such own property (JavaScript undefined). -/
def getProp {α : Type} : JsObj α → String → Option α
  | [], _ => none
  | (k, v) :: rest, key => if key = k then some v else getProp rest key

/-- Own property keys of the object, in insertion order. -/
def objKeys {α : Type} (o : JsObj α) : List String := o.map Prod.fst

/-- Enumeration order of for...in and Object.entries: array-index keys in
ascending numeric order first, then the remaining keys in insertion order. -/
def enumKeys {α : Type} (o : JsObj α) : List String :=
  sortByNat ((objKeys o).filter isArrayIndex)
    ++ (objKeys o).filter (fun k => !isArrayIndex k)

/-- Model of the statement (obj[key] = obj[key] || []).push(v): appends v to
the list stored under the key, creating the binding (at the end, i.e. as a
newly inserted own property) when it is absent. -/
def pushEntry {α : Type} : JsObj (List α) → String → α → JsObj (List α)
  | [], key, v => [(key, [v])]
  | (k, vs) :: rest, key, v =>
      if key = k then (k, vs ++ [v]) :: rest
      else (k, vs) :: pushEntry rest key v

/-- Coercion of a (possibly undefined) value to a JavaScript object key:
an absent value becomes the string key "undefined". -/
def jsKey (v : Option String) : String := v.getD "undefined"

/-- Interpolation of a (possibly undefined) value into a template literal:
an absent value renders as the text "undefined". -/
def renderCell (v : Option String) : String := v.getD "undefined"

/-- Field descriptor from the Looker Studio message (fields.DEFAULT entry);
only the id is consulted by the code.  Named FieldInfo because the source
name, field, is too generic and Field is taken by the algebra library. -/
structure FieldInfo where
  id : String
deriving DecidableEq

/-- Helper of fieldIndex carrying the running position, modelling
fields.forEach((field, index) => fieldMap[field.id] = index): a later
descriptor with the same id overwrites an earlier one. -/
def fieldIndexFrom (fields : List FieldInfo) (fid : String) (i : Nat)
    (acc : Option Nat) : Option Nat :=
  match fields with
  | [] => acc
  | f :: rest => fieldIndexFrom rest fid (i + 1) (if f.id = fid then some i else acc)

/-- Position of the field with the given id in a data row, as recorded in
fieldMap in organizeData (src/index.js line 31-33); none when no descriptor
carries the id (fieldMap.RACE is then undefined). -/
def fieldIndex (fields : List FieldInfo) (fid : String) : Option Nat :=
  fieldIndexFrom fields fid 0 none

/-- Cell extraction row[fieldMap.ID] (src/index.js lines 37-42): undefined
when the field id is unmapped or the row is too short. -/
def cellAt (row : List String) (i : Option Nat) : Option String :=
  match i with
  | none => none
  | some idx => row[idx]?

/-- Swimmer object pushed by organizeData (src/index.js lines 51-56). -/
structure SwimmerRecord where
  Lane : Option String
  Name : Option String
  Age : Option String
  Academy : Option String
deriving DecidableEq

/-- The swimmer record organizeData builds from one data row. -/
def mkRecord (fields : List FieldInfo) (row : List String) : SwimmerRecord :=
  { Lane := cellAt row (fieldIndex fields "LANE")
    Name := cellAt row (fieldIndex fields "NAME")
    Age := cellAt row (fieldIndex fields "AGEGROUP")
    Academy := cellAt row (fieldIndex fields "ACADEMY") }

/-- Race key of a data row: row[fieldMap.RACE] coerced to an object key. -/
def rowRace (fields : List FieldInfo) (row : List String) : String :=
  jsKey (cellAt row (fieldIndex fields "RACE"))

/-- Heat key of a data row: row[fieldMap.HEAT] coerced to an object key. -/
def rowHeat (fields : List FieldInfo) (row : List String) : String :=
  jsKey (cellAt row (fieldIndex fields "HEAT"))

/-- The nested structure built by organizeData: race key to heat key to
swimmer list, each level a JavaScript object in insertion order. -/
abbrev Organized := JsObj (JsObj (List SwimmerRecord))

/-- Model of the loop body of organizeData (src/index.js lines 44-56):
create organized[raceName] when absent, create organized[raceName][heatName]
when absent, then push the swimmer record onto that list. -/
def setNested : Organized → String → String → SwimmerRecord → Organized
  | [], race, heat, s => [(race, pushEntry ([] : JsObj (List SwimmerRecord)) heat s)]
  | (r, hs) :: rest, race, heat, s =>
      if race = r then (r, pushEntry hs heat s) :: rest
      else (r, hs) :: setNested rest race heat s

/-- One iteration of the data.forEach loop of organizeData: extract the race
and heat keys and the swimmer record from the row and insert them. -/
def orgStep (fields : List FieldInfo) (org : Organized) (row : List String) : Organized :=
  setNested org (rowRace fields row) (rowHeat fields row) (mkRecord fields row)

/-- organizeData (src/index.js lines 26-59): fold the rows in order into the
nested race -> heat -> swimmers object, starting from the empty object.
The source builds fieldMap once before the loop; fieldIndex recomputes the
same pure lookup at each use. -/
def organizeData (data : List (List String)) (fields : List FieldInfo) : Organized :=
  data.foldl (orgStep fields) []

/-- One rendered heat block of generateHtmlTables or of the original-viz
renderer: the heat title text, the four header cell texts, and the data rows
(each a list of cell texts). -/
structure HeatSection where
  title : String
  headerCells : List String
  rows : List (List String)
deriving DecidableEq

/-- One rendered race block: the race title text and its heat blocks. -/
structure RaceSection where
  title : String
  heats : List HeatSection
deriving DecidableEq

/-- Header cell texts of the table emitted by generateHtmlTables
(src/index.js lines 89-92). -/
def headerIndexJs : List String := ["Lane", "Swimmer", "Age Group", "Academy"]

/-- The four td cell texts of one swimmer row (src/index.js lines 102-105):
the Lane, Name, Age and Academy properties interpolated in that order. -/
def swimmerRow (s : SwimmerRecord) : List String :=
  [renderCell s.Lane, renderCell s.Name, renderCell s.Age, renderCell s.Academy]

/-- generateHtmlTables (src/index.js lines 68-120) as the display tree its
HTML string denotes: for each race key in for...in order a race section with
the race title, and inside it for each heat key in for...in order a heat
section with the heat title, the fixed header and one row per swimmer in
stored order. -/
def generateHtmlTables (org : Organized) : List RaceSection :=
  (enumKeys org).map (fun raceName =>
    { title := raceName
      heats :=
        (enumKeys ((getProp org raceName).getD [])).map (fun heatName =>
          { title := heatName
            headerCells := headerIndexJs
            rows := ((getProp ((getProp org raceName).getD []) heatName).getD []).map
              swimmerRow }) })

/-- The test !data || data.length === 0 (and likewise for fields) in
src/index.js line 137. -/
def emptyCheck {α : Type} (o : Option (List α)) : Bool :=
  match o with
  | none => true
  | some l => l.isEmpty

/-- message.data.tables: only the DEFAULT property is read. -/
structure IdxTables where
  DEFAULT : Option (List (List String))

/-- message.data.fields: only the DEFAULT property is read. -/
structure IdxFields where
  DEFAULT : Option (List FieldInfo)

/-- message.data of the Looker Studio message in src/index.js. -/
structure IdxData where
  tables : Option IdxTables
  fields : Option IdxFields

/-- The message handed to drawViz in src/index.js. -/
structure IdxMessage where
  data : Option IdxData

/-- Outcome of one draw in src/index.js: the container ends up holding the
no-data paragraph, the generated race tables, or the error paragraph. -/
inductive VizOutput where
  | noData (msg : String)
  | tables (sections : List RaceSection)
  | error (msg : String)
deriving DecidableEq

/-- Body of the try block of drawViz (src/index.js lines 129-149).  Reading a
property of an undefined intermediate object throws a TypeError, modelled as
Except.error with a representative message text. -/
def drawVizBody (m : IdxMessage) : Except String VizOutput :=
  match m.data with
  | none => Except.error "Cannot read properties of undefined (reading tables)"
  | some d =>
    match d.tables with
    | none => Except.error "Cannot read properties of undefined (reading DEFAULT)"
    | some ts =>
      match d.fields with
      | none => Except.error "Cannot read properties of undefined (reading DEFAULT)"
      | some fs =>
        if emptyCheck ts.DEFAULT || emptyCheck fs.DEFAULT then
          Except.ok (VizOutput.noData
            "No data available. Please ensure dimensions are added to the visualization.")
        else
          Except.ok (VizOutput.tables
            (generateHtmlTables (organizeData (ts.DEFAULT.getD []) (fs.DEFAULT.getD []))))

/-- drawViz (src/index.js lines 127-155): the try/catch around the body; a
thrown error is caught and rendered as the single error paragraph whose text
appends the error message (line 153). -/
def drawViz (m : IdxMessage) : VizOutput :=
  match drawVizBody m with
  | Except.ok out => out
  | Except.error e => VizOutput.error ("Error rendering visualization: " ++ e)

/-- One raw row of data.tables.DEFAULT in src/original-viz.js: only the
dimension property is read; it is absent on a malformed row. -/
structure OrigRow where
  dimension : Option (List String)

/-- The object built per row by the destructuring on src/original-viz.js
lines 17-18: the first six dimension entries, undefined when the tuple is
shorter. -/
structure OrigSwimmer where
  race : Option String
  heat : Option String
  lane : Option String
  name : Option String
  agegroup : Option String
  academy : Option String
deriving DecidableEq

/-- Destructuring const [race, heat, lane, name, agegroup, academy] =
row.dimension: throws a TypeError when dimension is undefined, otherwise
takes the first six entries, missing positions becoming undefined. -/
def parseRow (r : OrigRow) : Except String OrigSwimmer :=
  match r.dimension with
  | none => Except.error "row.dimension is not iterable"
  | some l => Except.ok
      { race := l[0]?, heat := l[1]?, lane := l[2]?
        name := l[3]?, agegroup := l[4]?, academy := l[5]? }

/-- groupBy (src/original-viz.js lines 4-9): reduce over the array, pushing
each item onto result[item[key]], creating the bucket on first occurrence.
The string property name argument is modelled as the key-selecting
function. -/
def groupBy {α : Type} (keyOf : α → String) (l : List α) : JsObj (List α) :=
  l.foldl (fun result item => pushEntry result (keyOf item) item) []

/-- The four td cell texts of one swimmer row in src/original-viz.js
line 68: lane, name, agegroup, academy interpolated in that order. -/
def origSwimmerRow (s : OrigSwimmer) : List String :=
  [renderCell s.lane, renderCell s.name, renderCell s.agegroup, renderCell s.academy]

/-- Header cell texts of the table emitted on src/original-viz.js line 63. -/
def headerOrig : List String := ["Lane", "Name", "Age Group", "Academy"]

/-- The heat blocks appended by the Object.entries(heats).forEach loop
(src/original-viz.js lines 46-75), in entries enumeration order. -/
def renderHeats (heats : JsObj (List OrigSwimmer)) : List HeatSection :=
  (enumKeys heats).map (fun heatName =>
    { title := "Heat: " ++ heatName
      headerCells := headerOrig
      rows := ((getProp heats heatName).getD []).map origSwimmerRow })

/-- Outcome of one draw in src/original-viz.js: the no-data div, or the app
div holding the single race title and the heat blocks. -/
inductive OrigOutput where
  | noData (msg : String)
  | app (raceTitle : String) (heats : List HeatSection)
deriving DecidableEq

/-- drawViz of src/original-viz.js (lines 12-78), named drawVizOrig to
distinguish it from the src/index.js entry point.  There is no try/catch in
this variant: a TypeError raised while mapping the rows propagates to the
caller, modelled by the Except.error result.  The race title is taken from
the first row only; the rows are grouped by their heat property alone. -/
def drawVizOrig (tableRows : List OrigRow) : Except String OrigOutput := do
  let rows ← tableRows.mapM parseRow
  match rows with
  | [] => return (OrigOutput.noData
      "No data available. Please ensure dimensions are added to the visualization.")
  | first :: rest =>
      return (OrigOutput.app ("Race: " ++ renderCell first.race)
        (renderHeats (groupBy (fun s => jsKey s.heat) (first :: rest))))

/-- Specification-side helper: fold a key sequence into the list of its
distinct values in first-seen order, extending a given accumulator. -/
def firstSeenFrom : List String → List String → List String
  | acc, [] => acc
  | acc, k :: ks => firstSeenFrom (if k ∈ acc then acc else acc ++ [k]) ks

/-- Specification-side helper: the distinct values of a key sequence in
first-seen order. -/
def firstSeen (ks : List String) : List String := firstSeenFrom [] ks

/-- Total number of swimmer records stored in a one-level grouping. -/
def bucketsSize {α : Type} (o : JsObj (List α)) : Nat :=
  (o.map (fun e => e.2.length)).sum

/-- Total number of swimmer records stored in the nested grouping. -/
def sumRecords (org : Organized) : Nat :=
  (org.map (fun e => bucketsSize e.2)).sum

/-- Field descriptors of the worked example of the specification, in the
order RACE, HEAT, LANE, NAME, AGEGROUP, ACADEMY. -/
def exFields : List FieldInfo :=
  [⟨"RACE"⟩, ⟨"HEAT"⟩, ⟨"LANE"⟩, ⟨"NAME"⟩, ⟨"AGEGROUP"⟩, ⟨"ACADEMY"⟩]

/-- Data rows of the worked example of the specification. -/
def exData : List (List String) :=
  [["100m Freestyle", "Heat 1", "1", "A. Smith", "U12", "Delta"],
   ["100m Freestyle", "Heat 1", "2", "B. Jones", "U12", "Echo"],
   ["100m Freestyle", "Heat 2", "1", "C. Lee", "U14", "Delta"]]

/-- Expected first heat block of the worked example. -/
def exHeat1 : HeatSection :=
  { title := "Heat 1"
    headerCells := headerIndexJs
    rows := [["1", "A. Smith", "U12", "Delta"], ["2", "B. Jones", "U12", "Echo"]] }

/-- Expected second heat block of the worked example. -/
def exHeat2 : HeatSection :=
  { title := "Heat 2"
    headerCells := headerIndexJs
    rows := [["1", "C. Lee", "U14", "Delta"]] }

/-- Expected single race section of the worked example. -/
def exRace : RaceSection :=
  { title := "100m Freestyle", heats := [exHeat1, exHeat2] }

/-- Rows whose race names are the array-index strings 2 and 1: the race seen
first is the string 2, yet object enumeration lists the key 1 first. -/
def cexData : List (List String) :=
  [["2", "Heat A", "1", "N1", "U12", "Ac1"],
   ["1", "Heat A", "1", "N2", "U12", "Ac2"]]

/-- Field descriptors lacking the ACADEMY identifier. -/
def c7Fields : List FieldInfo :=
  [⟨"RACE"⟩, ⟨"HEAT"⟩, ⟨"LANE"⟩, ⟨"NAME"⟩, ⟨"AGEGROUP"⟩]

/-- A data row paired with the descriptor list lacking ACADEMY. -/
def c7Row : List String := ["100m Freestyle", "Heat 1", "1", "A. Smith", "U12"]

/-- Two pre-split rows of different races sharing one heat name. -/
def w10Rows : List OrigRow :=
  [⟨some ["R1", "H1", "1", "A", "U12", "X"]⟩,
   ⟨some ["R2", "H1", "2", "B", "U12", "Y"]⟩]

/-- Parsed form of the first row of w10Rows. -/
def w10First : OrigSwimmer :=
  ⟨some "R1", some "H1", some "1", some "A", some "U12", some "X"⟩

/-- Parsed form of the second row of w10Rows. -/
def w10Second : OrigSwimmer :=
  ⟨some "R2", some "H1", some "2", some "B", some "U12", some "Y"⟩

/-- Key list of the empty object. -/
@[simp] theorem objKeys_nil {α : Type} : objKeys ([] : JsObj α) = [] := rfl

/-- Key list of a cons cell. -/
@[simp] theorem objKeys_cons {α : Type} (k : String) (v : α) (rest : JsObj α) :
    objKeys ((k, v) :: rest) = k :: objKeys rest := rfl

/-- A key listed among the object keys has a stored value. -/
theorem getProp_mem {α : Type} (o : JsObj α) (k : String) (h : k ∈ objKeys o) :
    ∃ v, getProp o k = some v := by
  induction o with
  | nil => simp [objKeys] at h
  | cons e rest ih =>
    obtain ⟨k', v⟩ := e
    by_cases hk : k = k'
    · exact ⟨v, by simp [getProp, hk]⟩
    · have hr : k ∈ objKeys rest := by simpa [objKeys, hk] using h
      obtain ⟨w, hw⟩ := ih hr
      exact ⟨w, by simp [getProp, hk, hw]⟩

/-- Membership in the numeric insertion. -/
theorem mem_insertByNat (x k : String) (l : List String) :
    x ∈ insertByNat k l ↔ x = k ∨ x ∈ l := by
  induction l with
  | nil => simp [insertByNat]
  | cons y ys ih =>
    by_cases h : keyNat k ≤ keyNat y
    · simp [insertByNat, h, List.mem_cons]
    · simp [insertByNat, h, List.mem_cons, ih]
      tauto

/-- The numeric sort preserves membership. -/
theorem mem_sortByNat (x : String) (l : List String) :
    x ∈ sortByNat l ↔ x ∈ l := by
  induction l with
  | nil => simp [sortByNat]
  | cons y ys ih => simp [sortByNat, mem_insertByNat, ih]

/-- Enumeration order lists exactly the object keys. -/
theorem mem_enumKeys {α : Type} (o : JsObj α) (k : String) :
    k ∈ enumKeys o ↔ k ∈ objKeys o := by
  by_cases h : isArrayIndex k <;>
    simp [enumKeys, mem_sortByNat, List.mem_filter, h]

/-- When no key is an array index, enumeration order is insertion order. -/
theorem enumKeys_eq_keys {α : Type} (o : JsObj α)
    (h : ∀ k ∈ objKeys o, isArrayIndex k = false) : enumKeys o = objKeys o := by
  have h1 : (objKeys o).filter isArrayIndex = [] := by
    rw [List.filter_eq_nil_iff]
    intro a ha
    simp [h a ha]
  have h2 : (objKeys o).filter (fun k => !isArrayIndex k) = objKeys o := by
    rw [List.filter_eq_self]
    intro a ha
    simp [h a ha]
  simp [enumKeys, h1, h2, sortByNat]

/-- Key list after a push: unchanged when the key exists, the new key
appended otherwise. -/
theorem objKeys_pushEntry {α : Type} (o : JsObj (List α)) (key : String) (v : α) :
    objKeys (pushEntry o key v)
      = if key ∈ objKeys o then objKeys o else objKeys o ++ [key] := by
  induction o with
  | nil => simp [pushEntry, objKeys]
  | cons e rest ih =>
    obtain ⟨k, vs⟩ := e
    by_cases hk : key = k
    · simp [pushEntry, hk]
    · by_cases hmem : key ∈ objKeys rest
      · simp [pushEntry, hk, ih, hmem, List.mem_cons]
      · simp [pushEntry, hk, ih, hmem, List.mem_cons]

/-- Lookup after a push: the pushed value is appended to the bucket of the
pushed key; other buckets are untouched. -/
theorem getProp_pushEntry {α : Type} (o : JsObj (List α)) (key q : String) (v : α) :
    getProp (pushEntry o key v) q
      = if q = key then some (((getProp o key).getD []) ++ [v]) else getProp o q := by
  induction o with
  | nil => by_cases h : q = key <;> simp [pushEntry, getProp, h]
  | cons e rest ih =>
    obtain ⟨k, vs⟩ := e
    by_cases hk : key = k
    · subst hk
      by_cases hq : q = key <;> simp [pushEntry, getProp, hq]
    · by_cases hq : q = k
      · subst hq
        have hqk : ¬ (q = key) := fun h => hk h.symm
        simp [pushEntry, hk, getProp, hqk]
      · have hkq : ¬ (key = k) := hk
        simp [pushEntry, hk, getProp, hq, ih]

/-- Key list after one organizeData insertion: unchanged when the race key
exists, the new race key appended otherwise. -/
theorem objKeys_setNested (org : Organized) (race heat : String) (s : SwimmerRecord) :
    objKeys (setNested org race heat s)
      = if race ∈ objKeys org then objKeys org else objKeys org ++ [race] := by
  induction org with
  | nil => simp [setNested, objKeys]
  | cons e rest ih =>
    obtain ⟨r, hs⟩ := e
    by_cases hr : race = r
    · simp [setNested, hr]
    · by_cases hmem : race ∈ objKeys rest
      · simp [setNested, hr, ih, hmem, List.mem_cons]
      · simp [setNested, hr, ih, hmem, List.mem_cons]

/-- Lookup after one organizeData insertion: the race bucket gets the pushed
heat entry; other races are untouched. -/
theorem getProp_setNested (org : Organized) (race heat : String) (s : SwimmerRecord)
    (q : String) :
    getProp (setNested org race heat s) q
      = if q = race then some (pushEntry ((getProp org race).getD []) heat s)
        else getProp org q := by
  induction org with
  | nil => by_cases h : q = race <;> simp [setNested, getProp, h]
  | cons e rest ih =>
    obtain ⟨r, hs⟩ := e
    by_cases hr : race = r
    · subst hr
      by_cases hq : q = race <;> simp [setNested, getProp, hq]
    · by_cases hq : q = r
      · subst hq
        have hqr : ¬ (q = race) := fun h => hr h.symm
        simp [setNested, hr, getProp, hqr]
      · simp [setNested, hr, getProp, hq, ih]

/-- Accumulator elements stay in the first-seen fold. -/
theorem mem_firstSeenFrom_left (x : String) (ks : List String) (acc : List String)
    (h : x ∈ acc) : x ∈ firstSeenFrom acc ks := by
  induction ks generalizing acc with
  | nil => simpa [firstSeenFrom] using h
  | cons k ks ih =>
    simp only [firstSeenFrom]
    apply ih
    by_cases hk : k ∈ acc <;> simp [hk, h]

/-- Every element of the first-seen fold comes from the accumulator or from
the key sequence. -/
theorem mem_firstSeenFrom (x : String) (ks : List String) (acc : List String)
    (h : x ∈ firstSeenFrom acc ks) : x ∈ acc ∨ x ∈ ks := by
  induction ks generalizing acc with
  | nil => left; simpa [firstSeenFrom] using h
  | cons k ks ih =>
    simp only [firstSeenFrom] at h
    rcases ih _ h with h1 | h1
    · by_cases hk : k ∈ acc
      · rw [if_pos hk] at h1
        exact Or.inl h1
      · rw [if_neg hk] at h1
        rcases List.mem_append.mp h1 with h2 | h2
        · exact Or.inl h2
        · right
          simp at h2
          simp [h2]
    · right
      simp [h1]

/-- Every key of the sequence appears in the first-seen fold. -/
theorem mem_firstSeenFrom_of_mem (x : String) (ks : List String) (acc : List String)
    (h : x ∈ ks) : x ∈ firstSeenFrom acc ks := by
  induction ks generalizing acc with
  | nil => cases h
  | cons k ks ih =>
    simp only [firstSeenFrom]
    rcases List.mem_cons.mp h with rfl | h1
    · apply mem_firstSeenFrom_left
      by_cases hk : x ∈ acc <;> simp [hk]
    · exact ih _ h1

/-- Race-key invariant of the organizeData fold: the key list of the built
object extends the starting key list by the distinct race keys of the rows,
in first-seen order. -/
theorem objKeys_orgFold (fields : List FieldInfo) (data : List (List String))
    (org : Organized) :
    objKeys (data.foldl (orgStep fields) org)
      = firstSeenFrom (objKeys org) (data.map (rowRace fields)) := by
  induction data generalizing org with
  | nil => simp [firstSeenFrom]
  | cons row rest ih =>
    simp only [List.foldl_cons, List.map_cons, firstSeenFrom]
    rw [ih]
    congr 1
    rw [show orgStep fields org row
        = setNested org (rowRace fields row) (rowHeat fields row) (mkRecord fields row)
        from rfl]
    rw [objKeys_setNested]

/-- Heat-key invariant of the organizeData fold: within a fixed race key, the
heat key list extends the starting one by the distinct heat keys of the rows
carrying that race key, in first-seen order. -/
theorem heatKeys_orgFold (fields : List FieldInfo) (data : List (List String))
    (org : Organized) (race : String) :
    objKeys ((getProp (data.foldl (orgStep fields) org) race).getD [])
      = firstSeenFrom (objKeys ((getProp org race).getD []))
          ((data.filter (fun row => rowRace fields row == race)).map (rowHeat fields)) := by
  induction data generalizing org with
  | nil => simp [firstSeenFrom]
  | cons row rest ih =>
    simp only [List.foldl_cons, List.filter_cons]
    by_cases hr : rowRace fields row = race
    · simp only [hr, beq_self_eq_true, if_true, List.map_cons, firstSeenFrom]
      rw [ih]
      congr 1
      rw [show orgStep fields org row
          = setNested org (rowRace fields row) (rowHeat fields row) (mkRecord fields row)
          from rfl]
      rw [hr, getProp_setNested, if_pos rfl]
      simp [objKeys_pushEntry]
    · have hb : (rowRace fields row == race) = false := by
        simp [hr]
      simp only [hb, Bool.false_eq_true, if_false]
      rw [ih]
      congr 2
      rw [show orgStep fields org row
          = setNested org (rowRace fields row) (rowHeat fields row) (mkRecord fields row)
          from rfl]
      rw [getProp_setNested, if_neg (fun h => hr h.symm)]

/-- Bucket invariant of the organizeData fold: the swimmer list stored under
a fixed race and heat key extends the starting one by the records of exactly
the rows carrying that race and heat key, in row order. -/
theorem bucket_orgFold (fields : List FieldInfo) (data : List (List String))
    (org : Organized) (race heat : String) :
    (getProp ((getProp (data.foldl (orgStep fields) org) race).getD []) heat).getD []
      = (getProp ((getProp org race).getD []) heat).getD []
        ++ (data.filter
              (fun row => rowRace fields row == race && rowHeat fields row == heat)).map
            (mkRecord fields) := by
  induction data generalizing org with
  | nil => simp
  | cons row rest ih =>
    simp only [List.foldl_cons, List.filter_cons]
    rw [ih]
    have hset : getProp (orgStep fields org row) race
        = if race = rowRace fields row
          then some (pushEntry ((getProp org (rowRace fields row)).getD [])
            (rowHeat fields row) (mkRecord fields row))
          else getProp org race := by
      rw [show orgStep fields org row
          = setNested org (rowRace fields row) (rowHeat fields row) (mkRecord fields row)
          from rfl]
      rw [getProp_setNested]
    by_cases hr : rowRace fields row = race
    · by_cases hh : rowHeat fields row = heat
      · have hcond : (rowRace fields row == race && rowHeat fields row == heat) = true := by
          simp [hr, hh]
        rw [hcond]
        simp only [if_true, List.map_cons]
        rw [hset, if_pos hr.symm]
        simp only [Option.getD_some]
        rw [hr, hh, getProp_pushEntry, if_pos rfl]
        simp
      · have hcond : (rowRace fields row == race && rowHeat fields row == heat) = false := by
          simp [hh]
        rw [hcond]
        simp only [Bool.false_eq_true, if_false]
        rw [hset, if_pos hr.symm]
        simp only [Option.getD_some]
        rw [hr, getProp_pushEntry, if_neg (fun h => hh h.symm)]
    · have hcond : (rowRace fields row == race && rowHeat fields row == heat) = false := by
        simp [hr]
      rw [hcond]
      simp only [Bool.false_eq_true, if_false]
      rw [hset, if_neg (fun h => hr h.symm)]

/-- A push adds exactly one record to the total size of a one-level
grouping. -/
theorem bucketsSize_pushEntry {α : Type} (o : JsObj (List α)) (key : String) (v : α) :
    bucketsSize (pushEntry o key v) = bucketsSize o + 1 := by
  induction o with
  | nil => simp [pushEntry, bucketsSize]
  | cons e rest ih =>
    obtain ⟨k, vs⟩ := e
    by_cases hk : key = k
    · simp [pushEntry, hk, bucketsSize]
      omega
    · simp [pushEntry, hk, bucketsSize] at ih ⊢
      omega

/-- One organizeData insertion adds exactly one record to the total size of
the nested grouping. -/
theorem sumRecords_setNested (org : Organized) (race heat : String) (s : SwimmerRecord) :
    sumRecords (setNested org race heat s) = sumRecords org + 1 := by
  induction org with
  | nil => simp [setNested, sumRecords, bucketsSize, pushEntry]
  | cons e rest ih =>
    obtain ⟨r, hs⟩ := e
    by_cases hr : race = r
    · simp [setNested, hr, sumRecords, bucketsSize_pushEntry]
      omega
    · simp [setNested, hr, sumRecords] at ih ⊢
      omega

/-- The organizeData fold adds exactly one record per input row. -/
theorem sumRecords_orgFold (fields : List FieldInfo) (data : List (List String))
    (org : Organized) :
    sumRecords (data.foldl (orgStep fields) org) = sumRecords org + data.length := by
  induction data generalizing org with
  | nil => simp
  | cons row rest ih =>
    simp only [List.foldl_cons, List.length_cons]
    rw [ih]
    rw [show orgStep fields org row
        = setNested org (rowRace fields row) (rowHeat fields row) (mkRecord fields row)
        from rfl]
    rw [sumRecords_setNested]
    omega

/-- When no descriptor carries the requested id, the fieldMap accumulator is
left untouched. -/
theorem fieldIndexFrom_of_absent (fields : List FieldInfo) (fid : String)
    (h : ∀ f ∈ fields, f.id ≠ fid) (i : Nat) (acc : Option Nat) :
    fieldIndexFrom fields fid i acc = acc := by
  induction fields generalizing i acc with
  | nil => rfl
  | cons f rest ih =>
    simp only [fieldIndexFrom]
    rw [if_neg (h f (by simp))]
    exact ih (fun g hg => h g (by simp [hg])) _ _

/-- When no descriptor carries the requested id, the fieldMap lookup is
undefined. -/
theorem fieldIndex_eq_none (fields : List FieldInfo) (fid : String)
    (h : ∀ f ∈ fields, f.id ≠ fid) : fieldIndex fields fid = none :=
  fieldIndexFrom_of_absent fields fid h 0 none

/-- Bucket invariant of the groupBy reduce: the list stored under a key
extends the starting one by exactly the items carrying that key, in input
order. -/
theorem groupBy_bucket_from {α : Type} (keyOf : α → String) (l : List α)
    (acc : JsObj (List α)) (k : String) :
    (getProp (l.foldl (fun result item => pushEntry result (keyOf item) item) acc) k).getD []
      = (getProp acc k).getD [] ++ l.filter (fun i => keyOf i == k) := by
  induction l generalizing acc with
  | nil => simp
  | cons x xs ih =>
    simp only [List.foldl_cons, List.filter_cons]
    rw [ih]
    by_cases hx : keyOf x = k
    · have hb : (keyOf x == k) = true := by simp [hx]
      rw [hb]
      simp only [if_true]
      rw [getProp_pushEntry, if_pos hx.symm, hx]
      simp
    · have hb : (keyOf x == k) = false := by simp [hx]
      rw [hb]
      simp only [Bool.false_eq_true, if_false]
      rw [getProp_pushEntry, if_neg (fun h => hx h.symm)]

/-- Each groupBy bucket holds exactly the items carrying its key, in input
order. -/
theorem groupBy_bucket {α : Type} (keyOf : α → String) (l : List α) (k : String) :
    (getProp (groupBy keyOf l) k).getD [] = l.filter (fun i => keyOf i == k) := by
  have h := groupBy_bucket_from keyOf l [] k
  simpa [groupBy, getProp] using h

/-- The race-section titles of the rendered output are the race keys in
enumeration order. -/
theorem generateHtmlTables_titles (org : Organized) :
    (generateHtmlTables org).map RaceSection.title = enumKeys org := by
  unfold generateHtmlTables
  rw [List.map_map]
  exact List.map_id' (enumKeys org)

/-- Shape of any race section of the rendered output: it is generated from a
race key of the grouping. -/
theorem mem_generateHtmlTables (org : Organized) (sec : RaceSection)
    (h : sec ∈ generateHtmlTables org) :
    ∃ raceName, raceName ∈ objKeys org ∧
      sec = { title := raceName
              heats := (enumKeys ((getProp org raceName).getD [])).map (fun heatName =>
                { title := heatName
                  headerCells := headerIndexJs
                  rows := ((getProp ((getProp org raceName).getD []) heatName).getD []).map
                    swimmerRow }) } := by
  rcases List.mem_map.mp h with ⟨raceName, hmem, heq⟩
  exact ⟨raceName, (mem_enumKeys _ _).mp hmem, heq.symm⟩

/-- The race keys of the grouping are the distinct race keys of the rows in
first-seen order. -/
theorem objKeys_organizeData (data : List (List String)) (fields : List FieldInfo) :
    objKeys (organizeData data fields) = firstSeen (data.map (rowRace fields)) := by
  have h := objKeys_orgFold fields data []
  simpa [organizeData, firstSeen] using h

/-- Within a race key, the heat keys of the grouping are the distinct heat
keys of the rows carrying that race key, in first-seen order. -/
theorem heatKeys_organizeData (data : List (List String)) (fields : List FieldInfo)
    (race : String) :
    objKeys ((getProp (organizeData data fields) race).getD [])
      = firstSeen ((data.filter (fun row => rowRace fields row == race)).map
          (rowHeat fields)) := by
  have h := heatKeys_orgFold fields data [] race
  simpa [organizeData, firstSeen, getProp] using h

/-- The swimmer bucket of a race and heat key holds exactly the records of
the rows carrying those keys, in row order. -/
theorem bucket_organizeData (data : List (List String)) (fields : List FieldInfo)
    (race heat : String) :
    (getProp ((getProp (organizeData data fields) race).getD []) heat).getD []
      = (data.filter
          (fun row => rowRace fields row == race && rowHeat fields row == heat)).map
          (mkRecord fields) := by
  have h := bucket_orgFold fields data [] race heat
  simpa [organizeData, getProp] using h

/-- Claim C3: for the empty input row set (zero rows) the draw operation of
both variants renders exactly the single fixed no-data message node and no
race or heat sections (the noData output carries no section at all). -/
theorem c3_empty_input (fs : IdxFields) :
    drawViz ⟨some ⟨some ⟨some []⟩, some fs⟩⟩
        = VizOutput.noData
            "No data available. Please ensure dimensions are added to the visualization."
      ∧ drawVizOrig []
        = Except.ok (OrigOutput.noData
            "No data available. Please ensure dimensions are added to the visualization.") := by
  constructor
  · simp [drawViz, drawVizBody, emptyCheck]
  · rfl

/-- Claim C9: in the flat-row variant the empty-state branch also fires when
the field-descriptor list is undefined or empty, even with a non-empty row
array — the branch tests both the data array and the fields array. -/
theorem c9_fields_empty (data : List (List String)) (fdef : Option (List FieldInfo))
    (h : fdef = none ∨ fdef = some []) :
    drawViz ⟨some ⟨some ⟨some data⟩, some ⟨fdef⟩⟩⟩
      = VizOutput.noData
          "No data available. Please ensure dimensions are added to the visualization." := by
  rcases h with rfl | rfl <;> simp [drawViz, drawVizBody, emptyCheck]

/-- Witness for C9 at a concrete non-empty row array and an empty descriptor
list. -/
theorem c9_fields_empty_witness :
    drawViz ⟨some ⟨some ⟨some exData⟩, some ⟨some []⟩⟩⟩
      = VizOutput.noData
          "No data available. Please ensure dimensions are added to the visualization." :=
  c9_fields_empty exData (some []) (Or.inr rfl)

/-- Claim C8: the pipeline is deterministic — equal row and field inputs
yield equal groupings and equal rendered output trees; the model consults no
state outside the input and no hashing order exists to depend on. -/
theorem c8_deterministic (d1 d2 : List (List String)) (f1 f2 : List FieldInfo)
    (hd : d1 = d2) (hf : f1 = f2) :
    organizeData d1 f1 = organizeData d2 f2
      ∧ generateHtmlTables (organizeData d1 f1)
        = generateHtmlTables (organizeData d2 f2) := by
  subst hd
  subst hf
  exact ⟨rfl, rfl⟩

/-- Witness for C8 at the worked example input. -/
theorem c8_deterministic_witness :
    organizeData exData exFields = organizeData exData exFields
      ∧ generateHtmlTables (organizeData exData exFields)
        = generateHtmlTables (organizeData exData exFields) :=
  c8_deterministic exData exData exFields exFields rfl rfl

/-- Claim C4 (amended): in the flat-row variant (src/index.js) every
exception raised inside the draw body is caught at the top level and turned
into the single error node whose text includes the error message; the
pre-split variant has no top-level catch, see the counterexample. -/
theorem c4_catch (m : IdxMessage) (e : String)
    (h : drawVizBody m = Except.error e) :
    drawViz m = VizOutput.error ("Error rendering visualization: " ++ e) := by
  simp [drawViz, h]

/-- Witness for C4 at the message whose data property is undefined. -/
theorem c4_catch_witness :
    drawViz ⟨none⟩
      = VizOutput.error ("Error rendering visualization: "
          ++ "Cannot read properties of undefined (reading tables)") :=
  c4_catch ⟨none⟩ "Cannot read properties of undefined (reading tables)" rfl

/-- Counterexample to C4 as stated: in the pre-split variant (original-viz)
a row whose dimension property is undefined makes the draw body throw, and
there is no top-level catch — the exception propagates to the host instead
of being rendered as an error node. -/
theorem c4_counterexample :
    drawVizOrig [⟨none⟩] = Except.error "row.dimension is not iterable" := rfl

/-- Claim C5: on the three-row worked example the pipeline produces exactly
one race section titled 100m Freestyle, containing heat subsection Heat 1
with the Smith row then the Jones row, followed by heat subsection Heat 2
with the Lee row. -/
theorem c5_worked_example :
    generateHtmlTables (organizeData exData exFields) = [exRace] := by decide

/-- Claim C6: every input row lands in exactly one race/heat bucket — the
one keyed by its race and heat values — so each bucket holds exactly the
records of the rows carrying its key, in row order, the record total over
all buckets equals the row count, and bucket keys are created on first
occurrence (first-seen key order) and never merged or split. -/
theorem c6_bucket_invariant (data : List (List String)) (fields : List FieldInfo) :
    sumRecords (organizeData data fields) = data.length
      ∧ objKeys (organizeData data fields) = firstSeen (data.map (rowRace fields))
      ∧ ∀ race heat : String,
          (getProp ((getProp (organizeData data fields) race).getD []) heat).getD []
            = (data.filter
                (fun row => rowRace fields row == race && rowHeat fields row == heat)).map
                (mkRecord fields) := by
  refine ⟨?_, objKeys_organizeData data fields,
    fun race heat => bucket_organizeData data fields race heat⟩
  have h := sumRecords_orgFold fields data []
  simpa [organizeData, sumRecords] using h

/-- Mapping a title-preserving section builder over a key list and then
projecting the titles gives back the key list. -/
theorem map_title_map {β : Type} (proj : β → String) (g : String → β)
    (hg : ∀ k, proj (g k) = k) (ks : List String) : (ks.map g).map proj = ks := by
  induction ks with
  | nil => rfl
  | cons x xs ih => simp [hg, ih]

/-- Claim C2: every heat section of the rendered output carries the fixed
four-column header and one row per stored swimmer record, with the four cell
texts taken from the record fields lane, name, age group and academy in that
order, verbatim when present (the second header cell reads Swimmer in the
flat variant and Name in the pre-split variant, the Swimmer/Name column of
the claim). -/
theorem c2_verbatim_cells (org : Organized) (sec : RaceSection) (hs : HeatSection)
    (hsec : sec ∈ generateHtmlTables org) (hhs : hs ∈ sec.heats) :
    hs.headerCells = ["Lane", "Swimmer", "Age Group", "Academy"]
      ∧ (∃ swimmers, getProp ((getProp org sec.title).getD []) hs.title = some swimmers
          ∧ hs.rows = swimmers.map swimmerRow)
      ∧ (∀ l n a ac : String,
          swimmerRow ⟨some l, some n, some a, some ac⟩ = [l, n, a, ac])
      ∧ (∀ r h : Option String, ∀ l n a ac : String,
          origSwimmerRow ⟨r, h, some l, some n, some a, some ac⟩ = [l, n, a, ac]) := by
  rcases mem_generateHtmlTables org sec hsec with ⟨raceName, hmem, rfl⟩
  rcases List.mem_map.mp hhs with ⟨heatName, hmemh, rfl⟩
  have hkey : heatName ∈ objKeys ((getProp org raceName).getD []) :=
    (mem_enumKeys _ _).mp hmemh
  rcases getProp_mem _ _ hkey with ⟨sw, hsw⟩
  refine ⟨rfl, ⟨sw, hsw, ?_⟩, fun l n a ac => rfl, fun r h l n a ac => rfl⟩
  show ((getProp ((getProp org raceName).getD []) heatName).getD []).map swimmerRow
      = sw.map swimmerRow
  rw [hsw]
  rfl

/-- Witness for C2 at the worked example: its single race section and first
heat section. -/
theorem c2_verbatim_cells_witness :
    exHeat1.headerCells = ["Lane", "Swimmer", "Age Group", "Academy"] :=
  (c2_verbatim_cells (organizeData exData exFields) exRace exHeat1
    (by decide) (by decide)).1

/-- Claim C1 (amended): when no race or heat key of the input is an
array-index string, the rendered output has exactly one race section per
distinct race key, in first-seen order, and within each race section exactly
one heat subsection per distinct heat key of that race, in first-seen order.
Race or heat names that are canonical array-index strings are instead
enumerated first in ascending numeric order, see the counterexample. -/
theorem c1_sections_first_seen (data : List (List String)) (fields : List FieldInfo)
    (hrace : ∀ row ∈ data, isArrayIndex (rowRace fields row) = false)
    (hheat : ∀ row ∈ data, isArrayIndex (rowHeat fields row) = false) :
    (generateHtmlTables (organizeData data fields)).map RaceSection.title
        = firstSeen (data.map (rowRace fields))
      ∧ ∀ sec ∈ generateHtmlTables (organizeData data fields),
          sec.heats.map HeatSection.title
            = firstSeen ((data.filter (fun row => rowRace fields row == sec.title)).map
                (rowHeat fields)) := by
  have hkeysAI : ∀ k ∈ objKeys (organizeData data fields), isArrayIndex k = false := by
    intro k hk
    rw [objKeys_organizeData] at hk
    rcases mem_firstSeenFrom k _ [] hk with h | h
    · cases h
    · rcases List.mem_map.mp h with ⟨row, hrow, rfl⟩
      exact hrace row hrow
  constructor
  · rw [generateHtmlTables_titles, enumKeys_eq_keys _ hkeysAI, objKeys_organizeData]
  · intro sec hsec
    rcases mem_generateHtmlTables _ _ hsec with ⟨raceName, hmem, rfl⟩
    have hheatsAI : ∀ k ∈ objKeys ((getProp (organizeData data fields) raceName).getD []),
        isArrayIndex k = false := by
      intro k hk
      rw [heatKeys_organizeData] at hk
      rcases mem_firstSeenFrom k _ [] hk with h | h
      · cases h
      · rcases List.mem_map.mp h with ⟨row, hrow, rfl⟩
        exact hheat row (List.mem_filter.mp hrow).1
    dsimp only
    rw [map_title_map HeatSection.title _ (fun k => rfl),
      enumKeys_eq_keys _ hheatsAI, heatKeys_organizeData]

/-- Witness for C1 at the worked example, whose race and heat names are not
array-index strings. -/
theorem c1_sections_first_seen_witness :
    (generateHtmlTables (organizeData exData exFields)).map RaceSection.title
      = firstSeen (exData.map (rowRace exFields)) :=
  (c1_sections_first_seen exData exFields (by decide) (by decide)).1

/-- Counterexample to C1 as stated: with race names 2 then 1 (array-index
strings), the rendered race sections are titled 1 then 2, not in first-seen
order. -/
theorem c1_counterexample :
    ¬ ((generateHtmlTables (organizeData cexData exFields)).map RaceSection.title
        = firstSeen (cexData.map (rowRace exFields))) := by decide

/-- Claim C7: when the descriptor list lacks the ACADEMY identifier, nothing
throws and no row is dropped — each input row still appears as a rendered
row, its record has an absent academy value, and its fourth cell renders as
the undefined text. -/
theorem c7_missing_field (data : List (List String)) (fields : List FieldInfo)
    (hacad : ∀ f ∈ fields, f.id ≠ "ACADEMY") (row : List String) (hrow : row ∈ data) :
    ∃ sec ∈ generateHtmlTables (organizeData data fields),
      ∃ hs ∈ sec.heats,
        swimmerRow (mkRecord fields row) ∈ hs.rows
          ∧ (mkRecord fields row).Academy = none
          ∧ (swimmerRow (mkRecord fields row))[3]? = some "undefined" := by
  have hac : (mkRecord fields row).Academy = none := by
    simp [mkRecord, fieldIndex_eq_none fields "ACADEMY" hacad, cellAt]
  have hrend : (swimmerRow (mkRecord fields row))[3]? = some "undefined" := by
    simp [swimmerRow, hac, renderCell]
  have hrk : rowRace fields row ∈ objKeys (organizeData data fields) := by
    rw [objKeys_organizeData]
    exact mem_firstSeenFrom_of_mem _ _ _ (List.mem_map_of_mem _ hrow)
  refine ⟨{ title := rowRace fields row
            heats := (enumKeys ((getProp (organizeData data fields)
                (rowRace fields row)).getD [])).map (fun heatName =>
              { title := heatName
                headerCells := headerIndexJs
                rows := ((getProp ((getProp (organizeData data fields)
                    (rowRace fields row)).getD []) heatName).getD []).map
                  swimmerRow }) }, ?_, ?_⟩
  · exact List.mem_map_of_mem _ ((mem_enumKeys _ _).mpr hrk)
  · have hhk : rowHeat fields row
        ∈ objKeys ((getProp (organizeData data fields) (rowRace fields row)).getD []) := by
      rw [heatKeys_organizeData]
      apply mem_firstSeenFrom_of_mem
      apply List.mem_map_of_mem
      rw [List.mem_filter]
      exact ⟨hrow, by simp⟩
    refine ⟨{ title := rowHeat fields row
              headerCells := headerIndexJs
              rows := ((getProp ((getProp (organizeData data fields)
                  (rowRace fields row)).getD []) (rowHeat fields row)).getD []).map
                swimmerRow }, ?_, ?_, hac, hrend⟩
    · exact List.mem_map_of_mem _ ((mem_enumKeys _ _).mpr hhk)
    · show swimmerRow (mkRecord fields row)
          ∈ ((getProp ((getProp (organizeData data fields)
              (rowRace fields row)).getD []) (rowHeat fields row)).getD []).map swimmerRow
      apply List.mem_map_of_mem
      rw [bucket_organizeData]
      apply List.mem_map_of_mem
      rw [List.mem_filter]
      exact ⟨hrow, by simp⟩

/-- Witness for C7 at a one-row input whose descriptor list lacks ACADEMY. -/
theorem c7_missing_field_witness :
    ∃ sec ∈ generateHtmlTables (organizeData [c7Row] c7Fields),
      ∃ hs ∈ sec.heats,
        swimmerRow (mkRecord c7Fields c7Row) ∈ hs.rows
          ∧ (mkRecord c7Fields c7Row).Academy = none
          ∧ (swimmerRow (mkRecord c7Fields c7Row))[3]? = some "undefined" :=
  c7_missing_field [c7Row] c7Fields (by decide) c7Row (by decide)

/-- Claim C10: in the pre-split variant every successfully parsed non-empty
input renders exactly one race title, taken from the race value of the first
row, and groups the rows by heat name alone — each heat bucket holds exactly
the rows carrying that heat key, regardless of their race value. -/
theorem c10_single_race (tableRows : List OrigRow) (first : OrigSwimmer)
    (rest : List OrigSwimmer)
    (hparse : tableRows.mapM parseRow = Except.ok (first :: rest)) :
    drawVizOrig tableRows
        = Except.ok (OrigOutput.app ("Race: " ++ renderCell first.race)
            (renderHeats (groupBy (fun s => jsKey s.heat) (first :: rest))))
      ∧ ∀ heatName : String,
          (getProp (groupBy (fun s => jsKey s.heat) (first :: rest)) heatName).getD []
            = (first :: rest).filter (fun s => jsKey s.heat == heatName) := by
  constructor
  · unfold drawVizOrig
    rw [hparse]
    rfl
  · intro heatName
    exact groupBy_bucket _ _ _

/-- Witness for C10 at two rows of different races sharing one heat name:
both rows land in the single heat table of the one race titled from the
first row. -/
theorem c10_single_race_witness :
    drawVizOrig w10Rows
      = Except.ok (OrigOutput.app ("Race: " ++ renderCell w10First.race)
          (renderHeats (groupBy (fun s => jsKey s.heat) (w10First :: [w10Second])))) :=
  (c10_single_race w10Rows w10First [w10Second] rfl).1

/-- Witness for C3 at a concrete fields object. -/
theorem c3_empty_input_witness :
    drawViz ⟨some ⟨some ⟨some []⟩, some ⟨some exFields⟩⟩⟩
      = VizOutput.noData
          "No data available. Please ensure dimensions are added to the visualization." :=
  (c3_empty_input ⟨some exFields⟩).1

/-- Witness for C6 at the worked example: three rows, three records in the
grouping. -/
theorem c6_bucket_invariant_witness :
    sumRecords (organizeData exData exFields) = exData.length :=
  (c6_bucket_invariant exData exFields).1
